import Mathlib

/-
Shallow embedding of the reload-coordination core of
SteelHouse/creative-suite-neon-local:
  app/process_manager.py   (ProcessManager)
  app/haproxy/haproxy_manager.py (HAProxyManager._write_haproxy_config)

Stateful Python code is embedded as explicit state passing over small state
records; the filesystem and the version-control system are oracles supplied
as explicit inputs.  All definitions are executable.
-/

set_option autoImplicit false

/-! ## JSON values and the branch-state mapping

`ProcessManager._get_neon_branch` / `_write_neon_branch` persist a JSON
object mapping branch names to values.  Python dicts preserve insertion
order, so the mapping is embedded as an association list. -/

inductive Json where
  | null : Json
  | bool (b : Bool) : Json
  | num (n : Int) : Json
  | str (s : String) : Json
  | arr (items : List Json) : Json
  | obj (fields : List (String × Json)) : Json

abbrev Assoc : Type := List (String × Json)

/-- Membership test for a key, as Python `"k" in d` / `dict.__contains__`. -/
def hasKey (k : String) (l : Assoc) : Bool :=
  l.any (fun p => p.1 == k)

/-- Lookup, as Python `d.get(k)` (returns `None` when the key is absent). -/
def lookupKey (k : String) (l : Assoc) : Option Json :=
  (l.find? (fun p => p.1 == k)).map (fun p => p.2)

/-- Key removal, as Python `del d[k]` on a dict. -/
def removeKey (k : String) (l : Assoc) : Assoc :=
  l.filter (fun p => p.1 != k)

/-- Python truthiness (`if branch_id:`) restricted to JSON values:
`None`, `False`, `0`, `""`, `[]` and `{}` are falsy. -/
def jtruthy : Json → Bool
  | Json.null => false
  | Json.bool b => b
  | Json.num n => n != 0
  | Json.str s => s != ""
  | Json.arr xs => !xs.isEmpty
  | Json.obj fs => !fs.isEmpty

def Json.isArr : Json → Bool
  | Json.arr _ => true
  | _ => false

/-- The per-entry normalization performed by `ProcessManager._write_neon_branch`
(process_manager.py lines 161-171).  A dict entry is left as is (a dict
carrying `"branch_id"` hits `continue`; a dict without it matches no clause).
A non-empty list whose first element is a dict carrying `"database"` and a
truthy `"branch_id"` is replaced by `{"branch_id": branch_id}`.  Everything
else is left unchanged. -/
def normalizeEntry (data : Json) : Json :=
  match data with
  | Json.obj _ => data
  | Json.arr (first :: _) =>
    match first with
    | Json.obj f =>
      if hasKey "database" f then
        match lookupKey "branch_id" f with
        | some bid => if jtruthy bid then Json.obj [("branch_id", bid)] else data
        | none => data
      else data
    | _ => data
  | _ => data

/-- The list-shaped entries that the normalization loop actually rewrites:
non-empty lists whose first element is a dict carrying `"database"` and a
truthy `"branch_id"`. -/
def isWellFormedLegacy : Json → Bool
  | Json.arr (Json.obj f :: _) =>
    hasKey "database" f &&
      (match lookupKey "branch_id" f with
       | some bid => jtruthy bid
       | none => false)
  | _ => false

/-- `ProcessManager._write_neon_branch`: the mapping that is serialized to
`/tmp/.neon_local/.branches` after the in-place normalization loop.  The loop
rebinds `state[branch]` for existing keys only, so it is a map over values. -/
def writeNeonBranch (state : Assoc) : Assoc :=
  state.map (fun p => (p.1, normalizeEntry p.2))

/-- `ProcessManager._get_neon_branch`: parse the state file; a missing or
unparseable file yields the empty mapping. -/
def loadNeonBranch (file : Option Assoc) : Assoc :=
  file.getD []

/-! ## Version-control oracles

`ProcessManager._get_git_branch` returns the current branch name or `None`
on any read/parse failure; it is embedded as an oracle value.
`ProcessManager._branch_exists_in_git` probes
`/tmp/.git/refs/heads/<name>` with `os.path.exists`. -/

/-- Outcome of probing the ref file of a branch on the filesystem. -/
inductive RefProbe where
  | found
  | absent
  | unreadable

/-- Python `os.path.exists`: returns `True` for an existing path and `False`
otherwise - including when existence cannot be determined (for example a
permission error on `os.stat`), which is its documented behaviour. -/
def osPathExists : RefProbe → Bool
  | RefProbe.found => true
  | RefProbe.absent => false
  | RefProbe.unreadable => false

/-- `ProcessManager._branch_exists_in_git` (lines 84-92): the `try` body
returns `os.path.exists(ref_path)`; the `except` handler logs and returns
`False`. -/
def branch_exists_in_git (probe : Except Unit RefProbe) : Bool :=
  match probe with
  | Except.ok r => osPathExists r
  | Except.error _ => false

/-! ## ProcessManager branch-lifecycle state machine -/

/-- Read-only environment of one ProcessManager call: the parsed current
branch (result of `_get_git_branch`) and the ref-file probe per branch
name (input of `_branch_exists_in_git`). -/
structure Env where
  gitBranch : Option String
  refProbe : String → Except Unit RefProbe

/-- Mutable state of a `ProcessManager`, plus the ghost observation list
`deletedRemote` recording, in order, the branch names for which a remote
branch deletion was issued. -/
structure PMState where
  previousBranch : Option String
  neonState : Assoc
  deletedRemote : List String
  deleteBranch : Bool

/-- Modelled from the spec: `NeonAPI.cleanup_branch` lives in `app/neon.py`,
which is not among the embedded sources.  Per the spec's remote-collaborator
contract `deleteBranch(state, branchName) -> updatedState`: if the branch has
an entry in the state, delete the corresponding remote branch and remove the
entry; if absent, it is a no-op.  The second component records the remote
deletion issued.  The call sites may pass `None` as the branch name, which
matches no string key. -/
def cleanup_branch (state : Assoc) (name : Option String) : Assoc × List String :=
  match name with
  | none => (state, [])
  | some n => if hasKey n state then (removeKey n state, [n]) else (state, [])

/-- `ProcessManager._cleanup_deleted_branch` (lines 94-107): re-read the
state file, and only when the branch has an entry, run the remote cleanup
and persist the updated state. -/
def cleanupDeletedBranch (s : PMState) (name : String) : PMState :=
  if hasKey name s.neonState then
    let r := cleanup_branch s.neonState (some name)
    { s with neonState := writeNeonBranch r.1, deletedRemote := s.deletedRemote ++ r.2 }
  else s

/-- `ProcessManager._check_branch_deletion` (lines 60-82). -/
def checkBranchDeletion (env : Env) (s : PMState) : PMState :=
  match s.previousBranch with
  | none => { s with previousBranch := env.gitBranch }
  | some prev =>
    if env.gitBranch = some prev then s
    else
      let s1 :=
        if prev ≠ "" ∧ prev ≠ "main" then
          if branch_exists_in_git (env.refProbe prev) then s
          else cleanupDeletedBranch s prev
        else s
      { s1 with previousBranch := env.gitBranch }

/-- Python `branch_name != current_branch` where `current_branch` may be
`None`: a string never equals `None`. -/
def differsFrom (cur : Option String) (k : String) : Bool :=
  match cur with
  | none => true
  | some c => k != c

/-- The loop body of `_check_deleted_branches_on_shutdown` for one key:
clean up branches that are neither the current branch nor `"main"` and whose
ref probe reports non-existence. -/
def shutdownStep (env : Env) (acc : PMState) (k : String) : PMState :=
  if differsFrom env.gitBranch k && k != "main"
      && !branch_exists_in_git (env.refProbe k) then
    cleanupDeletedBranch acc k
  else acc

/-- `ProcessManager._check_deleted_branches_on_shutdown` (lines 201-214):
iterate over a snapshot of the state-file keys (`list(state.keys())`). -/
def checkDeletedBranchesOnShutdown (env : Env) (s : PMState) : PMState :=
  (s.neonState.map (fun p => p.1)).foldl (shutdownStep env) s

/-- `ProcessManager.branch_cleanup` (lines 126-140): when branch deletion is
enabled, unconditionally run the remote cleanup for the current branch and
persist the (normalized) state. -/
def branchCleanup (env : Env) (s : PMState) : PMState :=
  if !s.deleteBranch then s
  else
    let r := cleanup_branch s.neonState env.gitBranch
    { s with neonState := writeNeonBranch r.1, deletedRemote := s.deletedRemote ++ r.2 }

/-- The branch-related part of `ProcessManager.cleanup` (lines 187-191). -/
def cleanupOnExit (env : Env) (s : PMState) : PMState :=
  if s.deleteBranch then checkDeletedBranchesOnShutdown env (branchCleanup env s)
  else s

/-! ## Reload signal (watcher / reloader coordination)

`watch_file_changes` sets `reload_needed := True` under `reload_lock`;
`start_reloader_loop`, when it wakes, checks the flag under the same lock,
and when set clears it and runs exactly one `self.reload()`.  Each
lock-protected critical section is one atomic step; `reloads` is a ghost
counter of `self.reload()` calls. -/

structure SysState where
  reloadNeeded : Bool
  reloads : Nat

/-- One watcher-side signal: `with self.reload_lock: self.reload_needed = True`
(lines 53-54). -/
def setFlag (s : SysState) : SysState :=
  { s with reloadNeeded := true }

/-- One coordinator wake-up: lines 118-123.  When the flag is clear the loop
`continue`s; when set it clears the flag and performs one reload. -/
def coordWake (s : SysState) : SysState :=
  if s.reloadNeeded then { reloadNeeded := false, reloads := s.reloads + 1 }
  else s

/-! ## HAProxy configuration rendering (`HAProxyManager._write_haproxy_config`) -/

/-- Connection descriptor fields consumed by the config generator. -/
structure Db where
  database : String
  host : String
  user : String
  password : String

/-- `app_name` from the `CLIENT` environment variable (already lowered). -/
def appNameFor (client : String) : String :=
  if client == "vscode" then "neon_local_vscode_container" else "neon_local_container"

/-- `user_agent_suffix` from the `CLIENT` environment variable. -/
def uaSuffixFor (client : String) : String :=
  if client == "vscode" then "_neon_local_vscode_container" else "_neon_local_container"

/-- `backend_name = f"backend_{db['database']}"`. -/
def backendName (db : Db) : String :=
  "backend_" ++ db.database

/-- The lines of the `backend_config` f-string (haproxy_manager.py lines
95-101): the triple-quoted literal opens and closes with a newline, giving
an empty first and last line. -/
def backendLines (db : Db) (appName uaSuffix : String) : List String :=
  [ "",
    "backend " ++ backendName db,
    "    server ws_server1 " ++ db.host ++ ":443 ssl verify none sni str(" ++ db.host ++ ") check",
    "    http-request set-header Neon-Connection-String \"postgresql://" ++ db.user ++ ":" ++ db.password ++ "@" ++ db.host ++ "/" ++ db.database ++ "?sslmode=require&application_name=" ++ appName ++ "\"",
    "    http-request set-header Host " ++ db.host,
    "    http-request set-header User-Agent \"%[req.hdr(User-Agent)]" ++ uaSuffix ++ "\"",
    "" ]

/-- One backend stanza, as the f-string text. -/
def backendConfig (db : Db) (appName uaSuffix : String) : String :=
  String.intercalate "\n" (backendLines db appName uaSuffix)

/-- The per-database addition to the frontend section (lines 105-108). -/
def frontendAddition (db : Db) : String :=
  "\n    acl is_" ++ db.database ++ " path_beg /" ++ db.database ++
  "\n    acl is_" ++ db.database ++ "_connection hdr(Neon-Connection-String) -m reg -i " ++ db.database ++
  "\n    use_backend " ++ backendName db ++ " if is_" ++ db.database ++ " or is_sql is_" ++ db.database ++ "_connection"

/-- Lines 84-120 after the template split: build the full configuration text
from `sections[0]` (called `front` here), the descriptor list and the client
flag. -/
def renderFromFrontend (front : String) (dbs : List Db) (client : String) : String :=
  let appName := appNameFor client
  let uaSuffix := uaSuffixFor client
  let fe0 := front.trim ++ "\n    acl is_sql path_beg /sql"
  let fe1 := fe0 ++ String.join (dbs.map frontendAddition)
  let fe2 :=
    match dbs with
    | [] => fe1
    | d :: _ => fe1 ++ ("\n    default_backend " ++ backendName d)
  fe2 ++ "\n\n" ++ String.intercalate "\n" (dbs.map (fun db => backendConfig db appName uaSuffix)) ++ "\n"

/-- Prefix test on character lists (Python `str.startswith`, elementwise). -/
def leadsWith : List Char → List Char → Bool
  | [], _ => true
  | _ :: _, [] => false
  | p :: ps, c :: cs => p == c && leadsWith ps cs

/-- Python `str.split(sep)` for a non-empty separator `s0 :: sepTail`:
repeatedly cut at the leftmost, non-overlapping separator occurrence. -/
def pySplit (s0 : Char) (sepTail : List Char) : List Char → List (List Char)
  | [] => [[]]
  | c :: rest =>
    if leadsWith (s0 :: sepTail) (c :: rest) then
      [] :: pySplit s0 sepTail (rest.drop sepTail.length)
    else
      match pySplit s0 sepTail rest with
      | [] => [[c]]
      | h :: t => (c :: h) :: t
termination_by l => l.length
decreasing_by
  · simp only [List.length_cons, List.length_drop]
    omega
  · simp only [List.length_cons]
    omega

/-- The chunk of text a `pySplit` run cuts off before the first separator
occurrence, computed from the text standing before an occurrence that is
known to follow.  Used to state that `pySplit` on `s ++ sep ++ post` has a
first chunk depending on `s` alone. -/
def firstCut (s0 : Char) (st : List Char) : List Char → List Char
  | [] => []
  | c :: rest =>
    if leadsWith (s0 :: st) ((c :: rest) ++ (s0 :: st)) then []
    else c :: firstCut s0 st rest

/-- The structural anchor `"backend http_backend"` (line 83), decomposed as
head character plus tail for `pySplit`. -/
def anchorHead : Char := 'b'

def anchorTail : List Char := "ackend http_backend".toList

/-- `haproxy_template.split("backend http_backend")` (line 83). -/
def splitAnchor (s : String) : List String :=
  (pySplit anchorHead anchorTail s.toList).map String.mk

/-- A config line is a request-header rewrite when it carries the
`http-request set-header` directive at the indentation used by the
generator. -/
def isHeaderRewriteLine (line : String) : Bool :=
  leadsWith "    http-request set-header".toList line.toList

/-- `HAProxyManager._write_haproxy_config` (lines 61-120) as a function of
the template text, descriptor list, and `CLIENT` flag: `none` embeds the
`IndexError` raised by `sections[1]` when the anchor is absent; otherwise the
rendered text built from `sections[0]` (the text between the first two
anchor occurrences is bound to `backend_template` but never used). -/
def renderConfig (template : String) (dbs : List Db) (client : String) : Option String :=
  match splitAnchor template with
  | front :: _ :: _ => some (renderFromFrontend front dbs client)
  | _ => none

/-! ## Concrete fixtures used by counterexamples and witnesses -/

def db0 : Db := { database := "app", host := "h1", user := "u", password := "p" }

/-- Environment in which the current branch is `main` and every ref probe
succeeds with a positive answer. -/
def envMain : Env := { gitBranch := some "main", refProbe := fun _ => Except.ok RefProbe.found }

/-- A state whose only entry is the one for `main`, with deletion enabled. -/
def sMain : PMState :=
  { previousBranch := some "main"
    neonState := [("main", Json.obj [("branch_id", Json.str "br-main")])]
    deletedRemote := []
    deleteBranch := true }

/-- Environment in which reading the current branch fails (null identity)
and the ref probe reports every branch as absent. -/
def envNullHead : Env := { gitBranch := none, refProbe := fun _ => Except.ok RefProbe.absent }

/-- A state still tracking branch `feature`, with deletion enabled. -/
def sFeature : PMState :=
  { previousBranch := some "feature"
    neonState := [("feature", Json.obj [("branch_id", Json.str "br-2")])]
    deletedRemote := []
    deleteBranch := true }

/-- A legacy well-formed list-shaped entry used as a fixture. -/
def legacyFields : List (String × Json) :=
  [("database", Json.str "appdb"), ("branch_id", Json.str "br-9"), ("host", Json.str "h")]

def legacyEntry : Json := Json.arr [Json.obj legacyFields]

/-! ## Helper lemmas -/

theorem str_assoc (a b c : String) : a ++ b ++ c = a ++ (b ++ c) := by
  cases a with
  | mk la =>
    cases b with
    | mk lb =>
      cases c with
      | mk lc =>
        show String.mk (la ++ lb ++ lc) = String.mk (la ++ (lb ++ lc))
        rw [List.append_assoc]

theorem str_append_nil (a : String) : a ++ "" = a := by
  cases a with
  | mk la =>
    show String.mk (la ++ []) = String.mk la
    rw [List.append_nil]

theorem str_toList_append (a b : String) : (a ++ b).toList = a.toList ++ b.toList := by
  cases a with
  | mk la =>
    cases b with
    | mk lb => rfl

theorem str_mk_toList (l : List Char) : (String.mk l).toList = l := rfl

theorem leadsWith_self (l : List Char) : leadsWith l l = true := by
  induction l with
  | nil => rfl
  | cons c cs ih => simp [leadsWith, ih]

theorem leadsWith_append_of (p : List Char) :
    ∀ (a b : List Char), leadsWith p a = true → leadsWith p (a ++ b) = true := by
  induction p with
  | nil => intro a b _; rfl
  | cons x ps ih =>
    intro a b h
    cases a with
    | nil => simp [leadsWith] at h
    | cons c as =>
      simp only [leadsWith, Bool.and_eq_true] at h
      simp only [List.cons_append, leadsWith, Bool.and_eq_true]
      exact ⟨h.1, ih as b h.2⟩

theorem leadsWith_append_ne (p : List Char) :
    ∀ (a b : List Char), leadsWith p a = false → leadsWith a p = false →
      leadsWith p (a ++ b) = false := by
  induction p with
  | nil => intro a b h1 _; simp [leadsWith] at h1
  | cons x ps ih =>
    intro a b h1 h2
    cases a with
    | nil => simp [leadsWith] at h2
    | cons c as =>
      cases hxc : (x == c) with
      | false => simp [List.cons_append, leadsWith, hxc]
      | true =>
        have hx : x = c := eq_of_beq hxc
        have h1' : leadsWith ps as = false := by
          simpa [leadsWith, hxc] using h1
        have h2' : leadsWith as ps = false := by
          have hcx : (c == x) = true := by rw [hx]; exact beq_self_eq_true c
          simpa [leadsWith, hcx] using h2
        simpa [List.cons_append, leadsWith, hxc] using ih as b h1' h2'

theorem leadsWith_indep (p : List Char) :
    ∀ (a b b' : List Char), p.length ≤ a.length →
      leadsWith p (a ++ b) = leadsWith p (a ++ b') := by
  induction p with
  | nil => intro a b b' _; rfl
  | cons x ps ih =>
    intro a b b' hlen
    cases a with
    | nil => simp at hlen
    | cons c as =>
      simp only [List.cons_append, leadsWith]
      exact congrArg (fun t => x == c && t)
        (ih as b b' (by simpa using Nat.le_of_succ_le_succ (by simpa using hlen)))

theorem pySplit_nil (s0 : Char) (st : List Char) : pySplit s0 st [] = [[]] := by
  rw [pySplit]

theorem pySplit_cons (s0 : Char) (st : List Char) (c : Char) (rest : List Char) :
    pySplit s0 st (c :: rest) =
      if leadsWith (s0 :: st) (c :: rest) then
        [] :: pySplit s0 st (rest.drop st.length)
      else
        match pySplit s0 st rest with
        | [] => [[c]]
        | h :: t => (c :: h) :: t := by
  rw [pySplit]

theorem pySplit_ne_nil (s0 : Char) (st : List Char) (l : List Char) :
    pySplit s0 st l ≠ [] := by
  cases l with
  | nil => rw [pySplit_nil]; exact List.cons_ne_nil _ _
  | cons c rest =>
    rw [pySplit_cons]
    split
    · exact List.cons_ne_nil _ _
    · split
      · exact List.cons_ne_nil _ _
      · exact List.cons_ne_nil _ _

theorem pySplit_boundary (s0 : Char) (st : List Char) :
    ∀ (s post : List Char), ∃ t, t ≠ [] ∧
      pySplit s0 st (s ++ (s0 :: st) ++ post) = firstCut s0 st s :: t := by
  intro s
  induction s with
  | nil =>
    intro post
    refine ⟨pySplit s0 st post, pySplit_ne_nil s0 st post, ?_⟩
    have e : ([] : List Char) ++ (s0 :: st) ++ post = s0 :: (st ++ post) := by simp
    rw [e, pySplit_cons]
    have hc : leadsWith (s0 :: st) (s0 :: (st ++ post)) = true := by
      have h := leadsWith_append_of (s0 :: st) (s0 :: st) post (leadsWith_self (s0 :: st))
      simpa using h
    rw [if_pos hc]
    show [] :: pySplit s0 st ((st ++ post).drop st.length) = firstCut s0 st [] :: pySplit s0 st post
    rw [List.drop_left, firstCut]
  | cons c s ih =>
    intro post
    have e : (c :: s) ++ (s0 :: st) ++ post = c :: (s ++ (s0 :: st) ++ post) := by simp
    rw [e, pySplit_cons]
    have hcond : leadsWith (s0 :: st) (c :: (s ++ (s0 :: st) ++ post))
        = leadsWith (s0 :: st) ((c :: s) ++ (s0 :: st)) := by
      have e1 : c :: (s ++ (s0 :: st) ++ post) = ((c :: s) ++ (s0 :: st)) ++ post := by simp
      have e2 : (c :: s) ++ (s0 :: st) = ((c :: s) ++ (s0 :: st)) ++ [] := by simp
      rw [e1]
      conv_rhs => rw [e2]
      refine leadsWith_indep (s0 :: st) ((c :: s) ++ (s0 :: st)) post [] ?_
      simp only [List.length_append, List.length_cons]
      omega
    rw [hcond]
    cases hc : leadsWith (s0 :: st) ((c :: s) ++ (s0 :: st)) with
    | true =>
      refine ⟨pySplit s0 st ((s ++ (s0 :: st) ++ post).drop st.length),
        pySplit_ne_nil _ _ _, ?_⟩
      rw [if_pos rfl, firstCut, if_pos hc]
    | false =>
      obtain ⟨t, ht, heq⟩ := ih post
      refine ⟨t, ht, ?_⟩
      rw [if_neg Bool.false_ne_true, heq, firstCut, if_neg (ne_true_of_eq_false hc)]

theorem mem_deletedRemote_cleanupDeletedBranch (s : PMState) (n x : String)
    (h : x ∈ (cleanupDeletedBranch s n).deletedRemote) :
    x ∈ s.deletedRemote ∨ x = n := by
  cases hk : hasKey n s.neonState with
  | true =>
    simp only [cleanupDeletedBranch, cleanup_branch, hk, if_pos rfl, if_true] at h
    simpa using h
  | false =>
    simp only [cleanupDeletedBranch, hk] at h
    simp at h
    exact Or.inl h

theorem shutdownStep_no_main (env : Env) (acc : PMState) (k : String)
    (h : "main" ∉ acc.deletedRemote) :
    "main" ∉ (shutdownStep env acc k).deletedRemote := by
  unfold shutdownStep
  split
  · intro hmem
    rcases mem_deletedRemote_cleanupDeletedBranch acc k "main" hmem with hin | heq
    · exact h hin
    · rename_i hcond
      simp only [Bool.and_eq_true, bne_iff_ne, ne_eq] at hcond
      exact hcond.1.2 heq.symm
  · exact h

theorem shutdownFold_no_main (env : Env) :
    ∀ (keys : List String) (acc : PMState), "main" ∉ acc.deletedRemote →
      "main" ∉ (keys.foldl (shutdownStep env) acc).deletedRemote := by
  intro keys
  induction keys with
  | nil => intro acc h; exact h
  | cons k ks ih =>
    intro acc h
    exact ih (shutdownStep env acc k) (shutdownStep_no_main env acc k h)

theorem iterate_setFlag (n : Nat) :
    ∀ s : SysState, 1 ≤ n →
      setFlag^[n] s = { reloadNeeded := true, reloads := s.reloads } := by
  induction n with
  | zero => intro s h; omega
  | succ k ih =>
    intro s _
    rw [Function.iterate_succ_apply]
    cases Nat.eq_zero_or_pos k with
    | inl h0 =>
      subst h0
      simp [setFlag]
    | inr hk =>
      rw [ih (setFlag s) hk]
      rfl

theorem normalizeEntry_idem (v : Json) :
    normalizeEntry (normalizeEntry v) = normalizeEntry v := by
  cases v with
  | arr items =>
    cases items with
    | nil => rfl
    | cons first rest =>
      cases first with
      | obj f =>
        cases hdb : hasKey "database" f with
        | false => simp [normalizeEntry, hdb]
        | true =>
          cases hbid : lookupKey "branch_id" f with
          | none => simp [normalizeEntry, hdb, hbid]
          | some bid =>
            cases ht : jtruthy bid with
            | false => simp [normalizeEntry, hdb, hbid, ht]
            | true => simp [normalizeEntry, hdb, hbid, ht]
      | null => rfl
      | bool b => rfl
      | num n => rfl
      | str s => rfl
      | arr xs => rfl
  | null => rfl
  | bool b => rfl
  | num n => rfl
  | str s => rfl
  | obj fs => rfl

/-! ## Claim theorems -/

/-- C1: the spec requires `_branch_exists_in_git` to be false-safe - when
the existence of a branch cannot be determined it must not return the
"deleted" answer (`False`).  The code returns `False` both from the
`except` handler and when `os.path.exists` cannot determine existence, so
the caller treats the branch as deleted.  This theorem evaluates the
embedded check at both failure modes. -/
theorem C1_failure_reports_deleted :
    branch_exists_in_git (Except.error ()) = false ∧
    branch_exists_in_git (Except.ok RefProbe.unreadable) = false :=
  ⟨rfl, rfl⟩

/-- C2 counterexample: with deletion enabled, the current branch `main` and
an entry for `main` in the state, `branch_cleanup` issues a remote delete
for `main` - the per-branch shutdown cleanup path has no default-branch
guard, so the claim as stated (no path ever deletes `main`) is false. -/
theorem C2_counterexample :
    envMain.gitBranch = some "main" ∧
    (branchCleanup envMain sMain).deletedRemote = ["main"] :=
  ⟨rfl, rfl⟩

/-- C2 (amended): the deletion-detection paths - the watch-time check
(`_check_branch_deletion`) and the shutdown deleted-branch scan
(`_check_deleted_branches_on_shutdown`) - never issue a remote delete for
the default branch `main`, regardless of the version-control existence
probes; the unconditional shutdown cleanup of the current branch
(`branch_cleanup`) carries no such guard. -/
theorem C2_detection_paths_never_delete_main (env : Env) (s : PMState)
    (h : "main" ∉ s.deletedRemote) :
    "main" ∉ (checkBranchDeletion env s).deletedRemote ∧
    "main" ∉ (checkDeletedBranchesOnShutdown env s).deletedRemote := by
  constructor
  · unfold checkBranchDeletion
    split
    · exact h
    · rename_i prev hprev
      split
      · exact h
      · split
        · rename_i hguard
          split
          · exact h
          · intro hmem
            rcases mem_deletedRemote_cleanupDeletedBranch s prev "main" hmem with hin | hm
            · exact h hin
            · exact hguard.2 hm.symm
        · exact h
  · exact shutdownFold_no_main env (s.neonState.map (fun p => p.1)) s h

/-- C2 witness: instantiation of the amended claim at a concrete state. -/
theorem C2_witness :
    "main" ∉ sFeature.deletedRemote ∧
    ("main" ∉ (checkBranchDeletion envMain sFeature).deletedRemote ∧
     "main" ∉ (checkDeletedBranchesOnShutdown envMain sFeature).deletedRemote) :=
  ⟨by simp [sFeature], C2_detection_paths_never_delete_main envMain sFeature (by simp [sFeature])⟩

/-- C3: the spec requires that no cleanup operation is invoked while the
current identity is null, but `_check_branch_deletion` with an unreadable
HEAD (current = `None`) and a tracked previous branch whose ref file is
gone still issues a remote delete for that previous branch, and the
shutdown scan does the same.  Only `branch_cleanup` is a no-op there.
This theorem evaluates the embedded code at that failing input. -/
theorem C3_null_identity_still_cleans_up :
    envNullHead.gitBranch = none ∧
    (checkBranchDeletion envNullHead sFeature).deletedRemote = ["feature"] ∧
    (checkDeletedBranchesOnShutdown envNullHead sFeature).deletedRemote = ["feature"] ∧
    (branchCleanup envNullHead sFeature).deletedRemote = [] :=
  ⟨rfl, rfl, rfl, rfl⟩

/-- C4 counterexample: an empty-list entry is a legacy list-shaped entry
that `_write_neon_branch` persists unchanged, still list-shaped, so the
claim that no list-shaped entry is ever persisted is false. -/
theorem C4_counterexample :
    writeNeonBranch [("b", Json.arr [])] = [("b", Json.arr [])] ∧
    Json.isArr (Json.arr []) = true :=
  ⟨rfl, rfl⟩

/-- C4 (amended): every list-shaped entry whose first element is a record
carrying a `database` field and a truthy `branch_id` is persisted as the
canonical `{branch_id}` record with the identifier preserved; list-shaped
entries not matching that pattern are persisted unchanged (hence still
list-shaped). -/
theorem C4_wellformed_legacy_normalized :
    (∀ (state : Assoc) (k : String) (f : List (String × Json)) (rest : List Json) (bid : Json),
      hasKey "database" f = true → lookupKey "branch_id" f = some bid →
      jtruthy bid = true →
      (k, Json.arr (Json.obj f :: rest)) ∈ state →
      (k, Json.obj [("branch_id", bid)]) ∈ writeNeonBranch state) ∧
    (∀ v : Json, Json.isArr v = true → isWellFormedLegacy v = false →
      normalizeEntry v = v) := by
  constructor
  · intro state k f rest bid hdb hbid ht hmem
    have hval : (k, Json.obj [("branch_id", bid)]) =
        (fun p : String × Json => (p.1, normalizeEntry p.2)) (k, Json.arr (Json.obj f :: rest)) := by
      simp [normalizeEntry, hdb, hbid, ht]
    unfold writeNeonBranch
    rw [hval]
    exact List.mem_map_of_mem _ hmem
  · intro v hv hw
    cases v with
    | arr items =>
      cases items with
      | nil => rfl
      | cons first rest =>
        cases first with
        | obj f =>
          cases hdb : hasKey "database" f with
          | false => simp [normalizeEntry, hdb]
          | true =>
            cases hbid : lookupKey "branch_id" f with
            | none => simp [normalizeEntry, hdb, hbid]
            | some bid =>
              have hbf : jtruthy bid = false := by
                simpa [isWellFormedLegacy, hdb, hbid] using hw
              simp [normalizeEntry, hdb, hbid, hbf]
        | null => rfl
        | bool b => rfl
        | num n => rfl
        | str s => rfl
        | arr xs => rfl
    | null => simp [Json.isArr] at hv
    | bool b => simp [Json.isArr] at hv
    | num n => simp [Json.isArr] at hv
    | str s => simp [Json.isArr] at hv
    | obj fs => simp [Json.isArr] at hv

/-- C4 witness: instantiation of the amended claim at a concrete legacy
state. -/
theorem C4_witness :
    hasKey "database" legacyFields = true ∧
    lookupKey "branch_id" legacyFields = some (Json.str "br-9") ∧
    jtruthy (Json.str "br-9") = true ∧
    ("feature-x", Json.obj [("branch_id", Json.str "br-9")]) ∈
      writeNeonBranch [("feature-x", legacyEntry)] :=
  ⟨rfl, rfl, rfl,
    C4_wellformed_legacy_normalized.1 [("feature-x", legacyEntry)] "feature-x"
      legacyFields [] (Json.str "br-9") rfl rfl rfl (List.Mem.head _)⟩

/-- C6: save-time normalization is idempotent - saving, loading the written
mapping back and saving again persists exactly the mapping of a single
save. -/
theorem C6_normalization_idempotent (state : Assoc) :
    writeNeonBranch (loadNeonBranch (some (writeNeonBranch state))) = writeNeonBranch state := by
  simp only [loadNeonBranch, Option.getD_some, writeNeonBranch, List.map_map]
  apply List.map_congr_left
  intro p _
  simp [Function.comp, normalizeEntry_idem]

/-- C8: any number N >= 1 of watcher-side flag sets occurring before the
coordinator observes the flag collapse into exactly one reload: the
coordinator wake clears the flag once, performs exactly one reload, and a
further wake without new signals performs none. -/
theorem C8_debounce (s : SysState) (N : Nat)
    (h0 : s.reloadNeeded = false) (hN : 1 ≤ N) :
    (coordWake (setFlag^[N] s)).reloads = s.reloads + 1 ∧
    (coordWake (setFlag^[N] s)).reloadNeeded = false ∧
    coordWake (coordWake (setFlag^[N] s)) = coordWake (setFlag^[N] s) := by
  rw [iterate_setFlag N s hN]
  exact ⟨rfl, rfl, rfl⟩

/-- C8 witness: three rapid signals on an idle system yield one reload. -/
theorem C8_witness :
    (SysState.mk false 0).reloadNeeded = false ∧ 1 ≤ 3 ∧
    ((coordWake (setFlag^[3] (SysState.mk false 0))).reloads = (SysState.mk false 0).reloads + 1 ∧
     (coordWake (setFlag^[3] (SysState.mk false 0))).reloadNeeded = false ∧
     coordWake (coordWake (setFlag^[3] (SysState.mk false 0))) = coordWake (setFlag^[3] (SysState.mk false 0))) :=
  ⟨rfl, by omega, C8_debounce (SysState.mk false 0) 3 rfl (by omega)⟩

/-- C9: rendering is deterministic - the embedded generator is a pure
function of exactly the template text, the descriptor sequence and the
client flag (the only inputs the Python code reads), so identical inputs
produce identical output. -/
theorem C9_deterministic (t1 t2 : String) (dbs1 dbs2 : List Db) (c1 c2 : String)
    (ht : t1 = t2) (hd : dbs1 = dbs2) (hc : c1 = c2) :
    renderConfig t1 dbs1 c1 = renderConfig t2 dbs2 c2 := by
  rw [ht, hd, hc]

/-- C9 witness: instantiation at concrete identical inputs. -/
theorem C9_witness :
    ("t" : String) = "t" ∧
    renderConfig "t" [db0] "vscode" = renderConfig "t" [db0] "vscode" :=
  ⟨rfl, C9_deterministic "t" "t" [db0] [db0] "vscode" "vscode" rfl rfl rfl⟩

theorem isHeaderRewriteLine_of_lit (lit x : String)
    (h : leadsWith "    http-request set-header".toList lit.toList = true) :
    isHeaderRewriteLine (lit ++ x) = true := by
  unfold isHeaderRewriteLine
  rw [str_toList_append]
  exact leadsWith_append_of _ _ _ h

theorem not_isHeaderRewriteLine_of_lit (lit x : String)
    (h1 : leadsWith "    http-request set-header".toList lit.toList = false)
    (h2 : leadsWith lit.toList "    http-request set-header".toList = false) :
    isHeaderRewriteLine (lit ++ x) = false := by
  unfold isHeaderRewriteLine
  rw [str_toList_append]
  exact leadsWith_append_ne _ _ _ h1 h2

/-- C5 counterexample: a concrete backend stanza carries three
request-header rewrites (connection string, `Host`, `User-Agent`), so the
claim of exactly two is false. -/
theorem C5_counterexample :
    ((backendLines db0 (appNameFor "") (uaSuffixFor "")).filter isHeaderRewriteLine).length ≠ 2 := by
  decide

/-- C5 (amended): every generated backend stanza contains exactly three
request-header rewrites: one setting the custom `Neon-Connection-String`
header to the fully-formed connection string (user and password in
cleartext, tagged with the client-flag-dependent application identifier),
one rewriting the `Host` header to the upstream host, and one appending
the client-flag-dependent suffix to the `User-Agent` header. -/
theorem C5_three_header_rewrites (db : Db) (appName uaSuffix : String) :
    backendConfig db appName uaSuffix = String.intercalate "\n" (backendLines db appName uaSuffix) ∧
    ((backendLines db appName uaSuffix).filter isHeaderRewriteLine).length = 3 ∧
    ("    http-request set-header Host " ++ db.host) ∈ backendLines db appName uaSuffix ∧
    ("    http-request set-header Neon-Connection-String \"postgresql://" ++ db.user ++ ":" ++ db.password ++ "@" ++ db.host ++ "/" ++ db.database ++ "?sslmode=require&application_name=" ++ appName ++ "\"") ∈ backendLines db appName uaSuffix := by
  have e1 : isHeaderRewriteLine "" = false := by decide
  have e2 : isHeaderRewriteLine ("backend " ++ backendName db) = false :=
    not_isHeaderRewriteLine_of_lit _ _ (by decide) (by decide)
  have e3 : isHeaderRewriteLine ("    server ws_server1 " ++ db.host ++ ":443 ssl verify none sni str(" ++ db.host ++ ") check") = false := by
    simp only [str_assoc]
    exact not_isHeaderRewriteLine_of_lit _ _ (by decide) (by decide)
  have e4 : isHeaderRewriteLine ("    http-request set-header Neon-Connection-String \"postgresql://" ++ db.user ++ ":" ++ db.password ++ "@" ++ db.host ++ "/" ++ db.database ++ "?sslmode=require&application_name=" ++ appName ++ "\"") = true := by
    simp only [str_assoc]
    exact isHeaderRewriteLine_of_lit _ _ (by decide)
  have e5 : isHeaderRewriteLine ("    http-request set-header Host " ++ db.host) = true :=
    isHeaderRewriteLine_of_lit _ _ (by decide)
  have e6 : isHeaderRewriteLine ("    http-request set-header User-Agent \"%[req.hdr(User-Agent)]" ++ uaSuffix ++ "\"") = true := by
    simp only [str_assoc]
    exact isHeaderRewriteLine_of_lit _ _ (by decide)
  refine ⟨rfl, ?_, ?_, ?_⟩
  · simp [backendLines, List.filter, e1, e2, e3, e4, e5, e6]
  · simp [backendLines]
  · simp [backendLines]

/-- C7: for a non-empty descriptor sequence the rendered configuration ends
with a default-backend rule targeting the backend of the *first* descriptor
as the last frontend directive, followed by the backend stanzas in exactly
the input order; for an empty sequence the output is the trimmed frontend
template plus only the generic `/sql` rule - no database-specific rules and
no default-backend rule. -/
theorem C7_order_and_default (front client : String) (d : Db) (rest : List Db) :
    (∃ pre : String,
      renderFromFrontend front (d :: rest) client =
        pre ++ ("\n    default_backend " ++ backendName d) ++
        ("\n\n" ++ String.intercalate "\n"
          ((d :: rest).map (fun db => backendConfig db (appNameFor client) (uaSuffixFor client))) ++ "\n")) ∧
    renderFromFrontend front [] client =
      front.trim ++ "\n    acl is_sql path_beg /sql" ++ "\n\n" ++ "\n" := by
  constructor
  · refine ⟨front.trim ++ "\n    acl is_sql path_beg /sql" ++
      String.join ((d :: rest).map frontendAddition), ?_⟩
    simp only [renderFromFrontend, str_assoc]
  · simp only [renderFromFrontend, List.map_nil, String.join, List.foldl_nil,
      String.intercalate, str_append_nil, str_assoc]

/-- C10: the rendered configuration depends only on the template text
before the (first) anchor occurrence - for any template of the form
`pre ++ "backend http_backend" ++ post` the output is identical to the one
for `pre ++ "backend http_backend"` and rendering succeeds; in particular
nothing at or after the anchor (including the backend section bound to the
unused `backend_template` variable) reaches the output, and a template with
a second anchor occurrence (take `post = mid ++ anchor ++ tail`) is
accepted without error, everything after it discarded. -/
theorem C10_output_independent_of_tail (pre post : List Char) (dbs : List Db) (client : String) :
    renderConfig (String.mk (pre ++ "backend http_backend".toList ++ post)) dbs client =
      renderConfig (String.mk (pre ++ "backend http_backend".toList)) dbs client ∧
    (renderConfig (String.mk (pre ++ "backend http_backend".toList ++ post)) dbs client).isSome = true := by
  have hanchor : "backend http_backend".toList = anchorHead :: anchorTail := rfl
  obtain ⟨t, ht, heq⟩ := pySplit_boundary anchorHead anchorTail pre post
  obtain ⟨t0, ht0, heq0⟩ := pySplit_boundary anchorHead anchorTail pre []
  rw [List.append_nil] at heq0
  unfold renderConfig splitAnchor
  rw [hanchor, str_mk_toList, str_mk_toList, heq, heq0]
  cases t with
  | nil => exact absurd rfl ht
  | cons x t2 =>
    cases t0 with
    | nil => exact absurd rfl ht0
    | cons y t02 => exact ⟨rfl, rfl⟩
